import Mathlib

/-!
Verification of the linear CLI's authentication, session-crypto and
pagination core against its specification.  The definitions below are a
shallow embedding of the Go source: bytes are `Nat` values (< 256 where it
matters), byte strings are `List Nat`, text is `String` or `List Char`,
fallible operations return `Except`/`Option`, and the ambient effects of the
original code (environment variables, keyring state, HTTP responses, the
OAuth callback, randomness) are passed in as explicit parameters.
-/

namespace Linear

/-! ## Byte-level groundwork -/

/-- Bytes of a string; the sources only ever feed ASCII text into the
byte-level primitives, for which codepoints and UTF-8 bytes agree. -/
def strBytes (s : String) : List Nat := s.data.map Char.toNat

/-- Big-endian serialization of `n` into exactly `k` bytes. -/
def natToBytesBE (k n : Nat) : List Nat :=
  (List.range k).map fun i => n / 256 ^ (k - 1 - i) % 256

/-- Big-endian interpretation of a byte list as a number. -/
def beBytesToNat (l : List Nat) : Nat := l.foldl (fun acc b => acc * 256 + b) 0

theorem natToBytesBE_length (k n : Nat) : (natToBytesBE k n).length = k := by
  simp [natToBytesBE]

theorem natToBytesBE_lt (k n : Nat) : ∀ x ∈ natToBytesBE k n, x < 256 := by
  intro x hx
  simp only [natToBytesBE, List.mem_map, List.mem_range] at hx
  obtain ⟨i, _, rfl⟩ := hx
  exact Nat.mod_lt _ (by omega)

/-- Result of any bitwise operation on two bytes is a byte. -/
theorem byteXorLt {a b : Nat} (ha : a < 256) (hb : b < 256) : a ^^^ b < 256 := by
  have h : a ^^^ b < 2 ^ 8 := Nat.bitwise_lt (by omega) (by omega)
  omega

/-! ## Base64

Embeds Go's `encoding/base64` as used by the source: `StdEncoding`
(padded, standard alphabet) for the encrypted token blob, and
`RawURLEncoding` (unpadded, URL alphabet) for the PKCE challenge. -/

def b64StdAlphabet : List Char :=
  "ABCDEFGHIJKLMNOPQRSTUVWXYZabcdefghijklmnopqrstuvwxyz0123456789+/".data

def b64UrlAlphabet : List Char :=
  "ABCDEFGHIJKLMNOPQRSTUVWXYZabcdefghijklmnopqrstuvwxyz0123456789-_".data

def b64Char (v : Nat) : Char := b64StdAlphabet.getD v '?'

def b64DecChar (c : Char) : Option Nat := b64StdAlphabet.findIdx? (fun a => a = c)

/-- Standard base64 encoding with padding, 3 input bytes per 4 output chars. -/
def b64EncodeChunks : List Nat → List Char
  | [] => []
  | [a] => [b64Char (a / 4), b64Char (a % 4 * 16), '=', '=']
  | [a, b] => [b64Char (a / 4), b64Char (a % 4 * 16 + b / 16), b64Char (b % 16 * 4), '=']
  | a :: b :: c :: rest =>
      b64Char (a / 4) :: b64Char (a % 4 * 16 + b / 16) ::
        b64Char (b % 16 * 4 + c / 64) :: b64Char (c % 64) :: b64EncodeChunks rest

def b64Bytes3 (v0 v1 v2 v3 : Nat) : List Nat :=
  [v0 * 4 + v1 / 16, v1 % 16 * 16 + v2 / 4, v2 % 4 * 64 + v3]

/-- Decoding of a final base64 quad, honouring `=` padding. -/
def b64DecodeLast (x0 x1 x2 x3 : Char) : Option (List Nat) :=
  if x2 = '=' then
    if x3 = '=' then
      match b64DecChar x0, b64DecChar x1 with
      | some v0, some v1 => some [v0 * 4 + v1 / 16]
      | _, _ => none
    else none
  else if x3 = '=' then
    match b64DecChar x0, b64DecChar x1, b64DecChar x2 with
    | some v0, some v1, some v2 => some [v0 * 4 + v1 / 16, v1 % 16 * 16 + v2 / 4]
    | _, _, _ => none
  else
    match b64DecChar x0, b64DecChar x1, b64DecChar x2, b64DecChar x3 with
    | some v0, some v1, some v2, some v3 => some (b64Bytes3 v0 v1 v2 v3)
    | _, _, _, _ => none

/-- Standard base64 decoding; `none` models Go's `CorruptInputError`. -/
def b64DecodeChunks : List Char → Option (List Nat)
  | [] => some []
  | [x0, x1, x2, x3] => b64DecodeLast x0 x1 x2 x3
  | x0 :: x1 :: x2 :: x3 :: r :: rest =>
      match b64DecChar x0, b64DecChar x1, b64DecChar x2, b64DecChar x3,
          b64DecodeChunks (r :: rest) with
      | some v0, some v1, some v2, some v3, some tl => some (b64Bytes3 v0 v1 v2 v3 ++ tl)
      | _, _, _, _, _ => none
  | _ => none

theorem b64DecChar_b64Char : ∀ v : Nat, v < 64 → b64DecChar (b64Char v) = some v := by
  decide

theorem b64Char_ne_pad : ∀ v : Nat, v < 64 → b64Char v ≠ '=' := by
  decide

theorem b64EncodeChunks_eq_nil : ∀ l : List Nat, b64EncodeChunks l = [] → l = [] := by
  intro l h
  match l with
  | [] => rfl
  | [a] => simp [b64EncodeChunks] at h
  | [a, b] => simp [b64EncodeChunks] at h
  | a :: b :: c :: rest => simp [b64EncodeChunks] at h

/-- Round trip of Go's `StdEncoding`: decoding an encoded byte list gives the
bytes back. -/
theorem b64_roundtrip : ∀ l : List Nat, (∀ x ∈ l, x < 256) →
    b64DecodeChunks (b64EncodeChunks l) = some l
  | [], _ => rfl
  | [a], h => by
    have ha : a < 256 := h a (by simp)
    have h0 : a / 4 < 64 := by omega
    have h1 : a % 4 * 16 < 64 := by omega
    simp only [b64EncodeChunks, b64DecodeChunks, b64DecodeLast, reduceIte,
      b64DecChar_b64Char _ h0, b64DecChar_b64Char _ h1, Option.some.injEq,
      List.cons.injEq, and_true]
    omega
  | [a, b], h => by
    have ha : a < 256 := h a (by simp)
    have hb : b < 256 := h b (by simp)
    have h0 : a / 4 < 64 := by omega
    have h1 : a % 4 * 16 + b / 16 < 64 := by omega
    have h2 : b % 16 * 4 < 64 := by omega
    simp only [b64EncodeChunks, b64DecodeChunks, b64DecodeLast,
      if_neg (b64Char_ne_pad _ h2), reduceIte,
      b64DecChar_b64Char _ h0, b64DecChar_b64Char _ h1, b64DecChar_b64Char _ h2,
      Option.some.injEq, List.cons.injEq, and_true]
    omega
  | a :: b :: c :: rest, h => by
    have ha : a < 256 := h a (by simp)
    have hb : b < 256 := h b (by simp)
    have hc : c < 256 := h c (by simp)
    have h0 : a / 4 < 64 := by omega
    have h1 : a % 4 * 16 + b / 16 < 64 := by omega
    have h2 : b % 16 * 4 + c / 64 < 64 := by omega
    have h3 : c % 64 < 64 := by omega
    have ih := b64_roundtrip rest (fun x hx => h x (by simp [hx]))
    have hbytes : b64Bytes3 (a / 4) (a % 4 * 16 + b / 16) (b % 16 * 4 + c / 64) (c % 64)
        = [a, b, c] := by
      simp only [b64Bytes3, List.cons.injEq, and_true]
      omega
    match hrest : b64EncodeChunks rest with
    | [] =>
      have hnil : rest = [] := b64EncodeChunks_eq_nil rest hrest
      subst hnil
      simp only [b64EncodeChunks, hrest, b64DecodeChunks, b64DecodeLast,
        if_neg (b64Char_ne_pad _ h2), if_neg (b64Char_ne_pad _ h3),
        b64DecChar_b64Char _ h0, b64DecChar_b64Char _ h1,
        b64DecChar_b64Char _ h2, b64DecChar_b64Char _ h3, hbytes, List.append_nil]
    | r :: rs =>
      rw [hrest] at ih
      simp only [b64EncodeChunks, hrest, b64DecodeChunks,
        b64DecChar_b64Char _ h0, b64DecChar_b64Char _ h1,
        b64DecChar_b64Char _ h2, b64DecChar_b64Char _ h3, ih, hbytes,
        List.cons_append, List.nil_append]
termination_by l => l.length

/-- URL-safe base64 without padding (Go's `RawURLEncoding`), used for the
PKCE code challenge. -/
def b64UrlChar (v : Nat) : Char := b64UrlAlphabet.getD v '?'

def b64UrlEncodeNoPad : List Nat → List Char
  | [] => []
  | [a] => [b64UrlChar (a / 4), b64UrlChar (a % 4 * 16)]
  | [a, b] => [b64UrlChar (a / 4), b64UrlChar (a % 4 * 16 + b / 16), b64UrlChar (b % 16 * 4)]
  | a :: b :: c :: rest =>
      b64UrlChar (a / 4) :: b64UrlChar (a % 4 * 16 + b / 16) ::
        b64UrlChar (b % 16 * 4 + c / 64) :: b64UrlChar (c % 64) :: b64UrlEncodeNoPad rest

/-! ## SHA-256

Concrete embedding of `crypto/sha256` on byte lists; 32-bit words are `Nat`
values reduced mod `2 ^ 32` after every arithmetic step. -/

def w32 (n : Nat) : Nat := n % 4294967296

def rotr32 (n x : Nat) : Nat := w32 ((x >>> n) ||| (x <<< (32 - n)))

def shaBigSigma0 (x : Nat) : Nat := rotr32 2 x ^^^ rotr32 13 x ^^^ rotr32 22 x

def shaBigSigma1 (x : Nat) : Nat := rotr32 6 x ^^^ rotr32 11 x ^^^ rotr32 25 x

def shaSmallSigma0 (x : Nat) : Nat := rotr32 7 x ^^^ rotr32 18 x ^^^ (x >>> 3)

def shaSmallSigma1 (x : Nat) : Nat := rotr32 17 x ^^^ rotr32 19 x ^^^ (x >>> 10)

def shaCh (x y z : Nat) : Nat := (x &&& y) ^^^ ((4294967295 - w32 x) &&& z)

def shaMaj (x y z : Nat) : Nat := (x &&& y) ^^^ (x &&& z) ^^^ (y &&& z)

def shaK : List Nat :=
  [1116352408, 1899447441, 3049323471, 3921009573, 961987163, 1508970993,
   2453635748, 2870763221, 3624381080, 310598401, 607225278, 1426881987,
   1925078388, 2162078206, 2614888103, 3248222580, 3835390401, 4022224774,
   264347078, 604807628, 770255983, 1249150122, 1555081692, 1996064986,
   2554220882, 2821834349, 2952996808, 3210313671, 3336571891, 3584528711,
   113926993, 338241895, 666307205, 773529912, 1294757372, 1396182291,
   1695183700, 1986661051, 2177026350, 2456956037, 2730485921, 2820302411,
   3259730800, 3345764771, 3516065817, 3600352804, 4094571909, 275423344,
   430227734, 506948616, 659060556, 883997877, 958139571, 1322822218,
   1537002063, 1747873779, 1955562222, 2024104815, 2227730452, 2361852424,
   2428436474, 2756734187, 3204031479, 3329325298]

structure Sha256State where
  a : Nat
  b : Nat
  c : Nat
  d : Nat
  e : Nat
  f : Nat
  g : Nat
  h : Nat

def shaInit : Sha256State :=
  ⟨1779033703, 3144134277, 1013904242, 2773480762,
   1359893119, 2600822924, 528734635, 1541459225⟩

/-- One extension step of the message schedule: appends word `w[n]` computed
from `w[n-2]`, `w[n-7]`, `w[n-15]`, `w[n-16]`. -/
def shaSchedStep (w : List Nat) : List Nat :=
  let n := w.length
  w ++ [w32 (shaSmallSigma1 (w.getD (n - 2) 0) + w.getD (n - 7) 0 +
    shaSmallSigma0 (w.getD (n - 15) 0) + w.getD (n - 16) 0)]

def shaSchedule (block16 : List Nat) : List Nat :=
  Nat.rec block16 (fun _ w => shaSchedStep w) 48

def shaRound (s : Sha256State) (kw : Nat × Nat) : Sha256State :=
  let t1 := w32 (s.h + shaBigSigma1 s.e + shaCh s.e s.f s.g + kw.1 + kw.2)
  let t2 := w32 (shaBigSigma0 s.a + shaMaj s.a s.b s.c)
  ⟨w32 (t1 + t2), s.a, s.b, s.c, w32 (s.d + t1), s.e, s.f, s.g⟩

def shaBlockWords (block : List Nat) : List Nat :=
  (List.range 16).map fun i => beBytesToNat ((block.drop (4 * i)).take 4)

def shaCompress (hs : Sha256State) (block : List Nat) : Sha256State :=
  let w := shaSchedule (shaBlockWords block)
  let s := (shaK.zip w).foldl shaRound hs
  ⟨w32 (hs.a + s.a), w32 (hs.b + s.b), w32 (hs.c + s.c), w32 (hs.d + s.d),
   w32 (hs.e + s.e), w32 (hs.f + s.f), w32 (hs.g + s.g), w32 (hs.h + s.h)⟩

/-- SHA-256 padding: a `0x80` byte, zeros to 56 mod 64, then the bit length
as a big-endian 64-bit integer. -/
def shaPad (msg : List Nat) : List Nat :=
  let len := msg.length
  msg ++ 0x80 :: List.replicate ((119 - len % 64) % 64) 0 ++ natToBytesBE 8 (len * 8)

def chunks64 (l : List Nat) : List (List Nat) :=
  if h : l = [] then [] else l.take 64 :: chunks64 (l.drop 64)
termination_by l.length
decreasing_by
  rw [List.length_drop]
  have := List.length_pos.mpr h
  omega

def shaDigestBytes (s : Sha256State) : List Nat :=
  [s.a, s.b, s.c, s.d, s.e, s.f, s.g, s.h].flatMap (natToBytesBE 4)

def sha256 (msg : List Nat) : List Nat :=
  shaDigestBytes ((chunks64 (shaPad msg)).foldl shaCompress shaInit)

theorem shaDigestBytes_length (s : Sha256State) : (shaDigestBytes s).length = 32 := by
  simp [shaDigestBytes, natToBytesBE_length, List.flatMap]

theorem sha256_length (msg : List Nat) : (sha256 msg).length = 32 :=
  shaDigestBytes_length _

theorem shaDigestBytes_lt (s : Sha256State) : ∀ x ∈ shaDigestBytes s, x < 256 := by
  intro x hx
  simp only [shaDigestBytes, List.mem_flatMap] at hx
  obtain ⟨w, _, hw⟩ := hx
  exact natToBytesBE_lt 4 w x hw

theorem sha256_lt (msg : List Nat) : ∀ x ∈ sha256 msg, x < 256 :=
  shaDigestBytes_lt _

/-! ## HMAC-SHA256 and PBKDF2

Embeds `crypto/hmac` over SHA-256 and `golang.org/x/crypto/pbkdf2.Key`. -/

def hmacSha256 (key msg : List Nat) : List Nat :=
  let k0 := if 64 < key.length then sha256 key else key
  let k := k0 ++ List.replicate (64 - k0.length) 0
  sha256 ((k.map fun b => b ^^^ 0x5c) ++ sha256 ((k.map fun b => b ^^^ 0x36) ++ msg))

theorem hmacSha256_length (key msg : List Nat) : (hmacSha256 key msg).length = 32 :=
  sha256_length _

/-- Inner loop of a PBKDF2 block: `n` further PRF iterations, xor-folding
each iterate into the running block `t`. -/
def pbkdf2BlockIter (prf : List Nat → List Nat) : Nat → List Nat → List Nat → List Nat
  | 0, _, t => t
  | n + 1, u, t =>
      let u' := prf u
      pbkdf2BlockIter prf n u' (List.zipWith (fun x y => x ^^^ y) t u')

/-- Block `T_i` of PBKDF2: `U_1 = PRF(salt ‖ INT(i))`, then `iter - 1`
further iterations xor-folded together. -/
def pbkdf2Block (prf : List Nat → List Nat) (salt : List Nat) (iter blockIndex : Nat) :
    List Nat :=
  let u1 := prf (salt ++ natToBytesBE 4 blockIndex)
  pbkdf2BlockIter prf (iter - 1) u1 u1

/-- Embedding of `pbkdf2.Key(password, salt, iter, keyLen, sha256.New)`. -/
def pbkdf2Key (password salt : List Nat) (iter keyLen : Nat) : List Nat :=
  let prf := hmacSha256 password
  let numBlocks := (keyLen + 31) / 32
  ((((List.range numBlocks).map fun i => pbkdf2Block prf salt iter (i + 1))).flatten).take keyLen

theorem pbkdf2BlockIter_length (prf : List Nat → List Nat)
    (hprf : ∀ m, (prf m).length = 32) :
    ∀ (n : Nat) (u t : List Nat), t.length = 32 → (pbkdf2BlockIter prf n u t).length = 32 := by
  intro n
  induction n with
  | zero => intro u t ht; exact ht
  | succ k ih =>
    intro u t ht
    simp only [pbkdf2BlockIter]
    exact ih _ _ (by simp [List.length_zipWith, ht, hprf])

theorem pbkdf2Block_length (prf : List Nat → List Nat)
    (hprf : ∀ m, (prf m).length = 32) (salt : List Nat) (iter blockIndex : Nat) :
    (pbkdf2Block prf salt iter blockIndex).length = 32 :=
  pbkdf2BlockIter_length prf hprf _ _ _ (hprf _)

theorem pbkdf2Key_length_32 (password salt : List Nat) (iter : Nat) :
    (pbkdf2Key password salt iter 32).length = 32 := by
  simp only [pbkdf2Key, List.length_take, List.length_flatten]
  have h : (List.range 1).map (fun i => pbkdf2Block (hmacSha256 password) salt iter (i + 1))
      = [pbkdf2Block (hmacSha256 password) salt iter 1] := by
    simp [List.range_succ]
  norm_num [h, pbkdf2Block_length _ (hmacSha256_length password) salt iter 1]

/-! ## Key derivation (`config.deriveKey`)

From `deriveKey` in the config package: the hostname (suffixed with
`"-linear-cli"`) is used as the PBKDF2 *salt* and the home-directory path
(suffixed with `"-linear-token-key"`) as the PBKDF2 *password*;
100000 iterations of PBKDF2-HMAC-SHA256 produce a 32-byte key.  The ambient
`os.Hostname()` and `os.UserHomeDir()` results are explicit parameters. -/

def deriveKeySalt (hostname : String) : String := hostname ++ "-linear-cli"

def deriveKeyPassword (home : String) : String := home ++ "-linear-token-key"

def deriveKey (hostname home : String) : List Nat :=
  pbkdf2Key (strBytes (deriveKeyPassword home)) (strBytes (deriveKeySalt hostname)) 100000 32

/-- Statement of the amended specification of `deriveKey`, for comparison:
PBKDF2-HMAC-SHA256, 100000 iterations, 32 bytes, password built from the
home directory and salt built from the hostname. -/
def deriveKeySpecAmended (hostname home : String) : List Nat :=
  pbkdf2Key (strBytes (home ++ "-linear-token-key"))
    (strBytes (hostname ++ "-linear-cli")) 100000 32

/-- Password shape asserted by the original claim: hostname and home
directory concatenated into the KDF password. -/
def deriveKeyClaimPassword (hostname home : String) : String := hostname ++ home

theorem deriveKey_length (hostname home : String) : (deriveKey hostname home).length = 32 :=
  pbkdf2Key_length_32 _ _ _

/-! ## AES-GCM (`crypto/cipher` GCM over an abstract block cipher)

The AES block permutation itself is kept abstract (a parameter
`E : List Nat → List Nat` standing for the keyed 16-byte block map built by
`aes.NewCipher`); the GCM composition — counter mode, GHASH, tag — and the
byte-level layout `nonce ‖ ciphertext ‖ tag` follow the Go standard library
with the 12-byte standard nonce and 16-byte tag. -/

def gcmR : Nat := 0xe1000000000000000000000000000000

def gfStep (v : Nat) : Nat := if v % 2 = 1 then (v / 2) ^^^ gcmR else v / 2

/-- Carry-less multiplication in GF(2^128) modulo the GCM polynomial. -/
def gfMul (x y : Nat) : Nat :=
  ((List.range 128).foldl
    (fun zv i => (if x / 2 ^ (127 - i) % 2 = 1 then zv.1 ^^^ zv.2 else zv.1, gfStep zv.2))
    (0, y)).1

def ghash (hk : Nat) (blocks : List Nat) : Nat :=
  blocks.foldl (fun y b => gfMul (y ^^^ b) hk) 0

def chunks16 (l : List Nat) : List (List Nat) :=
  if h : l = [] then [] else l.take 16 :: chunks16 (l.drop 16)
termination_by l.length
decreasing_by
  rw [List.length_drop]
  have := List.length_pos.mpr h
  omega

/-- GHASH input blocks for ciphertext `ct` with empty associated data: the
zero-padded ciphertext blocks followed by the 128-bit length block. -/
def gcmGhashBlocks (ct : List Nat) : List Nat :=
  (chunks16 (ct ++ List.replicate ((16 - ct.length % 16) % 16) 0)).map beBytesToNat
    ++ [ct.length * 8]

def gcmCounter (nonce : List Nat) (i : Nat) : List Nat := nonce ++ natToBytesBE 4 i

def gcmKeystream (E : List Nat → List Nat) (nonce : List Nat) (len : Nat) : List Nat :=
  (((List.range ((len + 15) / 16)).map fun i => E (gcmCounter nonce (i + 2))).flatten).take len

def gcmCtrXor (E : List Nat → List Nat) (nonce msg : List Nat) : List Nat :=
  List.zipWith (fun x y => x ^^^ y) msg (gcmKeystream E nonce msg.length)

def gcmHashKey (E : List Nat → List Nat) : Nat := beBytesToNat (E (List.replicate 16 0))

def gcmTag (E : List Nat → List Nat) (nonce ct : List Nat) : List Nat :=
  natToBytesBE 16
    (ghash (gcmHashKey E) (gcmGhashBlocks ct) ^^^ beBytesToNat (E (gcmCounter nonce 1)))

def gcmSeal (E : List Nat → List Nat) (nonce pt : List Nat) : List Nat :=
  let ct := gcmCtrXor E nonce pt
  ct ++ gcmTag E nonce ct

def gcmOpen (E : List Nat → List Nat) (nonce data : List Nat) : Option (List Nat) :=
  if data.length < 16 then none
  else
    let ct := data.take (data.length - 16)
    let tag := data.drop (data.length - 16)
    if tag = gcmTag E nonce ct then some (gcmCtrXor E nonce ct) else none

theorem length_flatten_const {α : Type} (k : Nat) :
    ∀ (L : List (List α)), (∀ x ∈ L, x.length = k) → L.flatten.length = k * L.length
  | [], _ => by simp
  | x :: L, h => by
    have hx : x.length = k := h x (by simp)
    have ih := length_flatten_const k L (fun y hy => h y (by simp [hy]))
    simp [hx, ih, Nat.mul_succ, Nat.add_comm]

theorem gcmKeystream_length (E : List Nat → List Nat) (hE : ∀ b, (E b).length = 16)
    (nonce : List Nat) (len : Nat) : (gcmKeystream E nonce len).length = len := by
  have hmem : ∀ x ∈ (List.range ((len + 15) / 16)).map
      (fun i => E (gcmCounter nonce (i + 2))), x.length = 16 := by
    intro x hx
    simp only [List.mem_map] at hx
    obtain ⟨i, _, rfl⟩ := hx
    exact hE _
  have hfl := length_flatten_const 16 _ hmem
  rw [List.length_map, List.length_range] at hfl
  simp only [gcmKeystream, List.length_take, hfl]
  omega

theorem gcmCtrXor_length (E : List Nat → List Nat) (hE : ∀ b, (E b).length = 16)
    (nonce msg : List Nat) : (gcmCtrXor E nonce msg).length = msg.length := by
  simp [gcmCtrXor, List.length_zipWith, gcmKeystream_length E hE]

theorem zipWith_xor_cancel : ∀ (l ks : List Nat), l.length ≤ ks.length →
    List.zipWith (fun x y => x ^^^ y) (List.zipWith (fun x y => x ^^^ y) l ks) ks = l
  | [], _, _ => by simp
  | a :: l, k :: ks, h => by
    simp only [List.zipWith_cons_cons, List.cons.injEq]
    exact ⟨Nat.xor_cancel_right k a, zipWith_xor_cancel l ks (by simpa using h)⟩
  | a :: l, [], h => by simp at h

/-- AEAD round trip for the GCM composition: opening a sealed message under
the same block cipher and nonce returns the plaintext. -/
theorem gcmOpen_gcmSeal (E : List Nat → List Nat) (hE : ∀ b, (E b).length = 16)
    (nonce pt : List Nat) : gcmOpen E nonce (gcmSeal E nonce pt) = some pt := by
  have hks : (gcmKeystream E nonce pt.length).length = pt.length :=
    gcmKeystream_length E hE nonce pt.length
  have hct : (gcmCtrXor E nonce pt).length = pt.length := gcmCtrXor_length E hE nonce pt
  have htag : (gcmTag E nonce (gcmCtrXor E nonce pt)).length = 16 := natToBytesBE_length _ _
  simp only [gcmSeal, gcmOpen, List.length_append, hct, htag]
  rw [if_neg (by omega)]
  have e1 : pt.length + 16 - 16 = pt.length := by omega
  rw [e1, List.take_left' hct, List.drop_left' hct, if_pos rfl]
  have hlen2 : (List.zipWith (fun x y => x ^^^ y) pt (gcmKeystream E nonce pt.length)).length
      = pt.length := by
    simpa [gcmCtrXor] using hct
  simp only [gcmCtrXor]
  rw [hlen2]
  exact congrArg some (zipWith_xor_cancel pt _ (by omega))

/-! ## Token-blob encryption (`config.encrypt` / `config.decrypt`)

`encrypt(plaintext, key)` seals with AES-GCM under a fresh random nonce and
returns `base64Std(nonce ‖ ciphertext ‖ tag)`; `decrypt(encoded, key)`
reverses this.  The random nonce and the keyed AES block map are explicit
parameters. -/

inductive CryptoError where
  | invalidKeySize
  | invalidBase64
  | tooShort
  | authFailed
deriving DecidableEq

def cryptoErrorMessage : CryptoError → String
  | .invalidKeySize => "crypto/aes: invalid key size"
  | .invalidBase64 => "illegal base64 data"
  | .tooShort => "ciphertext too short"
  | .authFailed => "cipher: message authentication failed"

/-- Error wrapping performed by `Config.LoadToken` around any `decrypt`
failure: every decryption failure surfaces under the one generic
"failed to decrypt" message. -/
def loadTokenDecryptMessage (e : CryptoError) : String :=
  "failed to decrypt token: " ++ cryptoErrorMessage e

/-- Key sizes accepted by `aes.NewCipher`. -/
def validAesKeySize (n : Nat) : Bool := n == 16 || n == 24 || n == 32

def encrypt (cipherOf : List Nat → List Nat → List Nat) (plaintext key nonce : List Nat) :
    Except CryptoError (List Char) :=
  if validAesKeySize key.length then
    .ok (b64EncodeChunks (nonce ++ gcmSeal (cipherOf key) nonce plaintext))
  else .error .invalidKeySize

def decrypt (cipherOf : List Nat → List Nat → List Nat) (encoded : List Char)
    (key : List Nat) : Except CryptoError (List Nat) :=
  match b64DecodeChunks encoded with
  | none => .error .invalidBase64
  | some ciphertext =>
    if validAesKeySize key.length then
      if ciphertext.length < 12 then .error .tooShort
      else
        match gcmOpen (cipherOf key) (ciphertext.take 12) (ciphertext.drop 12) with
        | none => .error .authFailed
        | some pt => .ok pt
    else .error .invalidKeySize

theorem mem_zipWith_xor_lt : ∀ (l ks : List Nat), (∀ x ∈ l, x < 256) →
    (∀ x ∈ ks, x < 256) →
    ∀ x ∈ List.zipWith (fun a b => a ^^^ b) l ks, x < 256
  | [], _, _, _ => by simp
  | _ :: _, [], _, _ => by simp
  | a :: l, k :: ks, hl, hk => by
    intro x hx
    simp only [List.zipWith_cons_cons, List.mem_cons] at hx
    rcases hx with rfl | hx
    · exact byteXorLt (hl a (by simp)) (hk k (by simp))
    · exact mem_zipWith_xor_lt l ks (fun y hy => hl y (by simp [hy]))
        (fun y hy => hk y (by simp [hy])) x hx

theorem gcmKeystream_lt (E : List Nat → List Nat) (hEb : ∀ b x, x ∈ E b → x < 256)
    (nonce : List Nat) (len : Nat) : ∀ x ∈ gcmKeystream E nonce len, x < 256 := by
  intro x hx
  simp only [gcmKeystream] at hx
  have hx' := List.mem_of_mem_take hx
  simp only [List.mem_flatten, List.mem_map] at hx'
  obtain ⟨blk, ⟨i, _, rfl⟩, hxb⟩ := hx'
  exact hEb _ _ hxb

theorem gcmSeal_lt (E : List Nat → List Nat) (hEb : ∀ b x, x ∈ E b → x < 256)
    (nonce pt : List Nat) (hp : ∀ x ∈ pt, x < 256) :
    ∀ x ∈ gcmSeal E nonce pt, x < 256 := by
  intro x hx
  simp only [gcmSeal, List.mem_append] at hx
  rcases hx with hx | hx
  · exact mem_zipWith_xor_lt pt _ hp (gcmKeystream_lt E hEb nonce pt.length) x hx
  · exact natToBytesBE_lt _ _ x hx

/-- Round trip of the whole token-blob encryption: decrypting an encrypted
blob under the same key recovers the plaintext. -/
theorem decrypt_encrypt (cipherOf : List Nat → List Nat → List Nat)
    (key nonce pt : List Nat) (hkey : key.length = 32)
    (hE : ∀ b, (cipherOf key b).length = 16)
    (hEb : ∀ b x, x ∈ cipherOf key b → x < 256)
    (hn : nonce.length = 12) (hnb : ∀ x ∈ nonce, x < 256)
    (hp : ∀ x ∈ pt, x < 256) :
    encrypt cipherOf pt key nonce
        = .ok (b64EncodeChunks (nonce ++ gcmSeal (cipherOf key) nonce pt)) ∧
      decrypt cipherOf (b64EncodeChunks (nonce ++ gcmSeal (cipherOf key) nonce pt)) key
        = .ok pt := by
  have hvalid : validAesKeySize key.length = true := by
    simp [validAesKeySize, hkey]
  constructor
  · simp [encrypt, hvalid]
  · have hbound : ∀ x ∈ nonce ++ gcmSeal (cipherOf key) nonce pt, x < 256 := by
      intro x hx
      rcases List.mem_append.mp hx with hx | hx
      · exact hnb x hx
      · exact gcmSeal_lt _ hEb nonce pt hp x hx
    have hdec := b64_roundtrip _ hbound
    have hlen : (nonce ++ gcmSeal (cipherOf key) nonce pt).length
        = 12 + ((gcmCtrXor (cipherOf key) nonce pt).length + 16) := by
      simp [gcmSeal, hn, gcmTag, natToBytesBE_length]
    have hnotshort : ¬ (nonce ++ gcmSeal (cipherOf key) nonce pt).length < 12 := by
      rw [hlen]
      omega
    simp only [decrypt, hdec, hvalid, if_true, if_neg hnotshort,
      List.take_left' hn, List.drop_left' hn, gcmOpen_gcmSeal (cipherOf key) hE nonce pt]

/-- Inversion: a successful `gcmOpen` means the received tag equals the
recomputed tag and the result is the full counter-mode unmasking — there is
no partial-success outcome. -/
theorem gcmOpen_eq_some (E : List Nat → List Nat) (nonce data pt : List Nat)
    (h : gcmOpen E nonce data = some pt) :
    16 ≤ data.length ∧
    data.drop (data.length - 16) = gcmTag E nonce (data.take (data.length - 16)) ∧
    pt = gcmCtrXor E nonce (data.take (data.length - 16)) := by
  by_cases h1 : data.length < 16
  · rw [gcmOpen, if_pos h1] at h
    cases h
  · rw [gcmOpen, if_neg h1] at h
    by_cases h2 : data.drop (data.length - 16) = gcmTag E nonce (data.take (data.length - 16))
    · simp only [if_pos h2, Option.some.injEq] at h
      exact ⟨by omega, h2, h.symm⟩
    · simp only [if_neg h2] at h
      cases h

/-! ## OAuth flow (`auth.Authenticate`, `auth.startCallbackServer`,
`auth.exchangeToken`, PKCE helpers)

The callback listener and the token endpoint are modelled as explicit
parameters: `CallbackOutcome` says whether a `/callback` request arrived
before the 5-minute deadline (and with which query parameters), and the
token endpoint is a function from the POSTed form to a token or an error. -/

structure AuthorizationResponse where
  code : String
  state : String
  error : String
deriving DecidableEq

inductive CallbackError where
  | authorizationError (msg : String)
  | stateMismatch
  | noCode
deriving DecidableEq

def callbackErrorMessage : CallbackError → String
  | .authorizationError m => "authorization error: " ++ m
  | .stateMismatch => "state mismatch: possible CSRF attack"
  | .noCode => "no authorization code received"

inductive CallbackOutcome where
  | arrived (r : AuthorizationResponse)
  | timeout
deriving DecidableEq

/-- Outcome of the `select` in `startCallbackServer`.  In the arrival branch
the Go code assigns the received response to `result`; in the timeout branch
it sends the timeout response *into* the buffered channel
(`resultChan <- authorizationResponse{Error: "timeout waiting for
authorization"}`) without assigning `result`, so `result` keeps its zero
value `{Code: "", State: "", Error: ""}`. -/
def selectResult : CallbackOutcome → AuthorizationResponse
  | .arrived r => r
  | .timeout => ⟨"", "", ""⟩

/-- Both `select` branches call `server.Close()`. -/
def listenerClosedAfterSelect : CallbackOutcome → Bool
  | .arrived _ => true
  | .timeout => true

/-- Validation performed by `startCallbackServer` after the `select`:
error parameter, then state comparison, then presence of a code. -/
def startCallbackServer (expectedState : String) (oc : CallbackOutcome) :
    Except CallbackError String :=
  let result := selectResult oc
  if result.error ≠ "" then .error (.authorizationError result.error)
  else if result.state ≠ expectedState then .error .stateMismatch
  else if result.code = "" then .error .noCode
  else .ok result.code

structure TokenData where
  accessToken : String
  tokenType : String
deriving DecidableEq

inductive AuthenticateError where
  | callbackFailed (e : CallbackError)
  | exchangeFailed
deriving DecidableEq

/-- Redirect URL constant from the config package. -/
def redirectURL : String := "http://127.0.0.1:8793/callback"

/-- Form fields POSTed by `exchangeToken`: the authorization code and the
original PKCE verifier (field `code_verifier`), never the challenge. -/
def exchangeTokenForm (clientID clientSecret code codeVerifier : String) :
    List (String × String) :=
  [("grant_type", "authorization_code"), ("code", code), ("redirect_uri", redirectURL),
   ("client_id", clientID), ("client_secret", clientSecret),
   ("code_verifier", codeVerifier)]

/-- Query parameters of the authorization URL built by `buildAuthURL`; the
challenge (never the verifier) is embedded here with method `S256`. -/
def buildAuthURLParams (clientID challenge state : String) : List (String × String) :=
  [("client_id", clientID), ("redirect_uri", redirectURL), ("response_type", "code"),
   ("state", state), ("scope", "read write"), ("code_challenge", challenge),
   ("code_challenge_method", "S256"), ("prompt", "consent")]

/-- PKCE challenge from `generateCodeChallenge`:
`base64url-nopad(sha256(verifier))`. -/
def generateCodeChallenge (verifier : String) : List Char :=
  b64UrlEncodeNoPad (sha256 (strBytes verifier))

/-- Challenge shape asserted by the specification, for comparison. -/
def pkceSpecChallenge (verifier : String) : List Char :=
  b64UrlEncodeNoPad (sha256 (strBytes verifier))

/-- Observable outcome of one `Authenticate` run: the returned result, the
form sent to the token endpoint (if the exchange was reached), and the
credential persisted by `SaveToken` (if any). -/
structure AuthFlowOutcome where
  result : Except AuthenticateError Unit
  exchangedWith : Option (List (String × String))
  persisted : Option TokenData

/-- Embedding of `Authenticate` after the PKCE material has been generated:
wait for the callback, validate it, exchange the code (passing the original
verifier), then persist the token. -/
def authenticate (clientID clientSecret expectedState codeVerifier : String)
    (oc : CallbackOutcome)
    (tokenEndpoint : List (String × String) → Except String TokenData) :
    AuthFlowOutcome :=
  match startCallbackServer expectedState oc with
  | .error e => ⟨.error (.callbackFailed e), none, none⟩
  | .ok code =>
    let form := exchangeTokenForm clientID clientSecret code codeVerifier
    match tokenEndpoint form with
    | .error _ => ⟨.error .exchangeFailed, some form, none⟩
    | .ok tok => ⟨.ok (), some form, some tok⟩

/-! ## Credential resolution (`auth.GetAPIKey`)

The environment variable `LINEAR_API_KEY` and the keyring are explicit
parameters. -/

inductive KeyringState where
  | openFailed
  | readFailed
  | notFound
  | item (data : String)
deriving DecidableEq

inductive GetAPIKeyError where
  | keyringAccessFailed
  | keyringReadFailed
  | unauthenticated
deriving DecidableEq

/-- Embedding of `GetAPIKey`: a non-empty environment override wins
unconditionally; otherwise the keyring is consulted, with "not found"
(`keyring.ErrKeyNotFound`) reported as `unauthenticated`, distinct from the
two backend-failure errors. -/
def getAPIKey (env : String) (ring : KeyringState) : Except GetAPIKeyError String :=
  if env ≠ "" then .ok env
  else
    match ring with
    | .openFailed => .error .keyringAccessFailed
    | .readFailed => .error .keyringReadFailed
    | .notFound => .error .unauthenticated
    | .item d => .ok d

/-! ## Pagination (`client.ListAllIssues` with the `nextPageCursor` guard)

The guarded pagination helper `nextPageCursor` is exercised by the
repository's tests (`TestNextPageCursor_EmptyEndCursor`,
`TestNextPageCursor_UnchangedCursor`, `TestNextPageCursor_NoNextPage`) but
its definition is not among the provided sources, so it is modelled from the
specification and those tests.  The server is an explicit parameter mapping
the index of a request to the page returned for it; the loop is embedded
with explicit fuel, `none` meaning the run is still going after `fuel`
requests. -/

structure PageInfo where
  hasNextPage : Bool
  endCursor : String
deriving DecidableEq

structure IssuesPage (α : Type) where
  nodes : List α
  pageInfo : PageInfo

inductive PaginationInvariantViolation where
  | emptyEndCursor
  | cursorNotAdvanced
deriving DecidableEq

/-- Modelled from the spec: "If `hasNextPage` is false, stop.  If true, the
next cursor must be non-empty and must differ from the previous cursor;
violation of either condition is a hard protocol error", with the return
shape `(nextCursor, hasNext, err)` and error conditions pinned down by the
`nextPageCursor` unit tests. -/
def nextPageCursor (current : String) (pi : PageInfo) :
    Except PaginationInvariantViolation (String × Bool) :=
  if pi.hasNextPage = false then .ok ("", false)
  else if pi.endCursor = "" then .error .emptyEndCursor
  else if pi.endCursor = current then .error .cursorNotAdvanced
  else .ok (pi.endCursor, true)

/-- Modelled from the spec: the fetch-all loop — request a page, append its
nodes in server order, consult `nextPageCursor`, stop on `hasNext = false`,
abort on a pagination-invariant violation, otherwise continue from the new
cursor.  `k` is the index of the next request, `fuel` bounds the number of
requests this run is observed for; `none` means the loop is still running
after `fuel` requests. -/
def listAllIssuesLoop {α : Type} (server : Nat → IssuesPage α) (k : Nat)
    (cursor : String) (acc : List α) :
    Nat → Option (Except PaginationInvariantViolation (List α))
  | 0 => none
  | fuel + 1 =>
    let page := server k
    let acc' := acc ++ page.nodes
    match nextPageCursor cursor page.pageInfo with
    | .error e => some (.error e)
    | .ok (next, hasNext) =>
      if hasNext then listAllIssuesLoop server (k + 1) next acc' fuel
      else some (.ok acc')

def listAllIssues {α : Type} (server : Nat → IssuesPage α) (fuel : Nat) :
    Option (Except PaginationInvariantViolation (List α)) :=
  listAllIssuesLoop server 0 "" [] fuel

/-- Termination of a fetch-all run, as observed through the fuel bound: some
finite number of requests suffices for the loop to stop (with a result or a
pagination error). -/
def ListAllTerminates {α : Type} (server : Nat → IssuesPage α) : Prop :=
  ∃ fuel, (listAllIssues server fuel).isSome = true

/-- Adversarial server that always claims another page and always supplies a
fresh, non-empty cursor (of strictly growing length). -/
def freshCursorServer : Nat → IssuesPage Nat :=
  fun n => ⟨[], ⟨true, String.mk (List.replicate (n + 1) 'a')⟩⟩

/-! ## ListIssues request building (`client.ListIssues`) -/

structure ListIssuesOptions where
  teamKey : String
  limit : Int
  after : String
deriving DecidableEq

structure ListIssuesRequest where
  first : Int
  after : Option String
  filter : Option String
deriving DecidableEq

/-- Embedding of the variable-building part of `ListIssues`: a non-positive
`Limit` defaults to 50, `after` is sent only when non-empty, and the filter
only when a team key is given. -/
def buildListIssuesRequest (opts : ListIssuesOptions) : ListIssuesRequest :=
  let limit := if opts.limit ≤ 0 then 50 else opts.limit
  ⟨limit,
    if opts.after = "" then none else some opts.after,
    if opts.teamKey = "" then none else some opts.teamKey⟩

/-! ## GraphQL transport error for non-2xx responses (`client.Do`) -/

/-- Error message built by `Do` for a non-200 response:
`fmt.Errorf("unexpected status %d: %s", resp.StatusCode, string(body))`,
where `body` is the entire response body read by `io.ReadAll`. -/
def doStatusErrorMessage (statusCode : Nat) (body : String) : String :=
  "unexpected status " ++ toString statusCode ++ ": " ++ body

/-- Status handling of `Do`: a non-200 response yields the status error with
the full body; a 200 response proceeds (no error from this stage). -/
def doHandleStatus (statusCode : Nat) (body : String) : Option String :=
  if statusCode ≠ 200 then some (doStatusErrorMessage statusCode body) else none

/-- Oversized response body used to exhibit the absence of truncation. -/
def oversizedBody : String := String.mk (List.replicate 1000 'x')

theorem stringMk_length (l : List Char) : (String.mk l).length = l.length := rfl

/-- Three-page scripted server (sizes 1,1,1, last page not continuing). -/
def threePageServer : Nat → IssuesPage Nat
  | 0 => ⟨[10], ⟨true, "c1"⟩⟩
  | 1 => ⟨[20], ⟨true, "c2"⟩⟩
  | _ => ⟨[30], ⟨false, "c3"⟩⟩

/-- Scripted server whose second page claims another page but returns the
cursor of the first page unchanged. -/
def stalledCursorServer : Nat → IssuesPage Nat
  | 0 => ⟨[1], ⟨true, "c1"⟩⟩
  | _ => ⟨[2], ⟨true, "c1"⟩⟩

/-- Single-page scripted server. -/
def onePageServer : Nat → IssuesPage Nat := fun _ => ⟨[7], ⟨false, "end"⟩⟩

/-- Against the fresh-cursor adversary the loop passes the guard at every
step and therefore never stops within any fuel bound. -/
theorem freshCursorServer_no_stop : ∀ (fuel k : Nat) (cursor : String) (acc : List Nat),
    cursor.length ≤ k → listAllIssuesLoop freshCursorServer k cursor acc fuel = none := by
  intro fuel
  induction fuel with
  | zero => intro k cursor acc hc; rfl
  | succ f ih =>
    intro k cursor acc hc
    have hne : ¬ ((freshCursorServer k).pageInfo.endCursor = "") := by
      intro h
      have h3 := congrArg String.length h
      have h4 : (String.mk (List.replicate (k + 1) 'a')).length = k + 1 := by
        show (List.replicate (k + 1) 'a').length = k + 1
        simp
      simp only [freshCursorServer] at h3
      rw [h4] at h3
      simp at h3
    have hne2 : ¬ ((freshCursorServer k).pageInfo.endCursor = cursor) := by
      intro h
      have h3 := congrArg String.length h
      have h4 : (String.mk (List.replicate (k + 1) 'a')).length = k + 1 := by
        show (List.replicate (k + 1) 'a').length = k + 1
        simp
      simp only [freshCursorServer] at h3
      rw [h4] at h3
      omega
    have hnext : nextPageCursor cursor (freshCursorServer k).pageInfo
        = .ok ((freshCursorServer k).pageInfo.endCursor, true) := by
      rw [nextPageCursor, if_neg (by simp [freshCursorServer]), if_neg hne, if_neg hne2]
    simp only [listAllIssuesLoop, hnext]
    rw [if_pos trivial]
    exact ih (k + 1) _ _ (by simp [freshCursorServer, stringMk_length])

/-- If some page of the script is terminal — it does not claim another page,
or it claims one with an empty cursor (a guard violation) — then the loop
stops within that many requests, with a result or a pagination error. -/
theorem listAllIssuesLoop_terminal {α : Type} (server : Nat → IssuesPage α) (n : Nat)
    (hterm : (server n).pageInfo.hasNextPage = false ∨ (server n).pageInfo.endCursor = "") :
    ∀ (fuel k : Nat) (cursor : String) (acc : List α), k ≤ n → n < k + fuel →
      (listAllIssuesLoop server k cursor acc fuel).isSome = true := by
  intro fuel
  induction fuel with
  | zero => intro k cursor acc hk hn; omega
  | succ f ih =>
    intro k cursor acc hk hn
    rcases hnext : nextPageCursor cursor (server k).pageInfo with e | ⟨next, hasNext⟩
    · simp [listAllIssuesLoop, hnext]
    · by_cases hhn : hasNext = true
      · have hkn : k ≠ n := by
          intro hkeq
          subst hkeq
          rcases hterm with h1 | h1
          · rw [nextPageCursor, if_pos h1] at hnext
            cases hnext
            simp at hhn
          · by_cases h2 : (server k).pageInfo.hasNextPage = false
            · rw [nextPageCursor, if_pos h2] at hnext
              cases hnext
              simp at hhn
            · rw [nextPageCursor, if_neg h2, if_pos h1] at hnext
              cases hnext
        simp only [listAllIssuesLoop, hnext, hhn, if_pos trivial]
        exact ih (k + 1) next _ (by omega) (by omega)
      · simp [listAllIssuesLoop, hnext, hhn]

/-! ## Claim theorems -/

/-- Claim C4 (failing input for the code bug): for the non-2xx status
handling of `Do`, a 500 response with a 1000-byte body produces an error
message that ends with the *entire* body — `io.ReadAll(resp.Body)` is
interpolated without any cap or truncation — while a 200 response passes.
The repository's own security notes flag exactly this as the bug "API Key
Exposure in Error Messages". -/
theorem c4_full_body_in_status_error :
    doHandleStatus 500 oversizedBody = some ("unexpected status 500: " ++ oversizedBody) ∧
    oversizedBody.length = 1000 ∧
    doHandleStatus 200 oversizedBody = none := by
  refine ⟨rfl, ?_, rfl⟩
  rw [oversizedBody, stringMk_length, List.length_replicate]

/-- Claim C5 counterexample: in `deriveKey` the PBKDF2 *salt* is
hostname-dependent (`hostname + "-linear-cli"`), not a fixed
application-specific constant, and the *password* is built from the home
directory only (`home + "-linear-token-key"`) — the hostname is not
concatenated into the password as the claim states. -/
theorem c5_counterexample :
    deriveKeySalt "hostA" ≠ deriveKeySalt "hostB" ∧
    deriveKeySalt "hostA" = "hostA-linear-cli" ∧
    deriveKeyPassword "/home/u" = "/home/u-linear-token-key" ∧
    deriveKeyClaimPassword "hostA" "/home/u" ≠ deriveKeyPassword "/home/u" :=
  ⟨by decide, by decide, by decide, by decide⟩

/-- Claim C5 (amended): `deriveKey` is a deterministic function of the
hostname and home directory, produces exactly 32 bytes, and equals
PBKDF2-HMAC-SHA256 with 100000 iterations over the password
`home ++ "-linear-token-key"` and the machine-specific salt
`hostname ++ "-linear-cli"`. -/
theorem c5_deriveKey_kdf_shape (hostname home hostname' home' : String)
    (hh : hostname = hostname') (hm : home = home') :
    (deriveKey hostname home).length = 32 ∧
    deriveKey hostname home = deriveKey hostname' home' ∧
    deriveKey hostname home = deriveKeySpecAmended hostname home ∧
    deriveKey hostname home = pbkdf2Key (strBytes (home ++ "-linear-token-key"))
      (strBytes (hostname ++ "-linear-cli")) 100000 32 :=
  ⟨deriveKey_length hostname home, by rw [hh, hm], rfl, rfl⟩

/-- Witness for C5 at a concrete machine context. -/
theorem c5_deriveKey_kdf_shape_witness :
    ("host" : String) = "host" ∧ ("/home/u" : String) = "/home/u" ∧
    ((deriveKey "host" "/home/u").length = 32 ∧
      deriveKey "host" "/home/u" = deriveKey "host" "/home/u" ∧
      deriveKey "host" "/home/u" = deriveKeySpecAmended "host" "/home/u" ∧
      deriveKey "host" "/home/u" = pbkdf2Key (strBytes ("/home/u" ++ "-linear-token-key"))
        (strBytes ("host" ++ "-linear-cli")) 100000 32) :=
  ⟨rfl, rfl, c5_deriveKey_kdf_shape "host" "/home/u" "host" "/home/u" rfl rfl⟩

/-- Claim C7: credential resolution is first-match-wins — a non-empty
environment override is returned verbatim whatever the keyring holds; with
no override a stored key is returned; with neither the result is the
`unauthenticated` error, which is distinct from both keyring backend-failure
errors. -/
theorem c7_credential_resolution :
    (∀ (env : String) (ring : KeyringState), env ≠ "" → getAPIKey env ring = .ok env) ∧
    (∀ k : String, getAPIKey "" (.item k) = .ok k) ∧
    getAPIKey "" .notFound = .error .unauthenticated ∧
    GetAPIKeyError.unauthenticated ≠ GetAPIKeyError.keyringAccessFailed ∧
    GetAPIKeyError.unauthenticated ≠ GetAPIKeyError.keyringReadFailed ∧
    getAPIKey "" .openFailed = .error .keyringAccessFailed ∧
    getAPIKey "" .readFailed = .error .keyringReadFailed := by
  refine ⟨?_, ?_, rfl, by decide, by decide, rfl, rfl⟩
  · intro env ring henv
    rw [getAPIKey.eq_def, if_pos henv]
  · intro k
    rfl

/-- Witness for C7: with both an override and a stored key present the
override wins. -/
theorem c7_credential_resolution_witness :
    ("ENV-KEY" : String) ≠ "" ∧
    getAPIKey "ENV-KEY" (.item "stored-key") = .ok "ENV-KEY" :=
  ⟨by decide, c7_credential_resolution.1 "ENV-KEY" (.item "stored-key") (by decide)⟩

/-- Claim C10: `ListIssues` defaults a non-positive `Limit` to a page size
of 50, sends a positive `Limit` unchanged, and the cursor and team filter
of the request do not depend on `Limit`. -/
theorem c10_list_issues_limit_default (opts : ListIssuesOptions) :
    (opts.limit ≤ 0 → (buildListIssuesRequest opts).first = 50) ∧
    (0 < opts.limit → (buildListIssuesRequest opts).first = opts.limit) ∧
    (∀ l1 l2 : Int,
      (buildListIssuesRequest ⟨opts.teamKey, l1, opts.after⟩).after
          = (buildListIssuesRequest ⟨opts.teamKey, l2, opts.after⟩).after ∧
        (buildListIssuesRequest ⟨opts.teamKey, l1, opts.after⟩).filter
          = (buildListIssuesRequest ⟨opts.teamKey, l2, opts.after⟩).filter) := by
  refine ⟨?_, ?_, ?_⟩
  · intro hle
    simp [buildListIssuesRequest, if_pos hle]
  · intro hpos
    simp [buildListIssuesRequest, if_neg (by omega : ¬ opts.limit ≤ 0)]
  · intro l1 l2
    exact ⟨rfl, rfl⟩

/-- Witness for C10: zero and positive limits at a concrete option set. -/
theorem c10_list_issues_limit_default_witness :
    ((0 : Int) ≤ 0 ∧ (buildListIssuesRequest ⟨"ENG", 0, "cur"⟩).first = 50) ∧
    ((0 : Int) < 7 ∧ (buildListIssuesRequest ⟨"ENG", 7, "cur"⟩).first = 7) :=
  ⟨⟨by decide, (c10_list_issues_limit_default ⟨"ENG", 0, "cur"⟩).1 (by decide)⟩,
   ⟨by decide, (c10_list_issues_limit_default ⟨"ENG", 7, "cur"⟩).2.1 (by decide)⟩⟩

theorem startCallbackServer_auth_error (s cbCode cbState cbError : String)
    (h : cbError ≠ "") :
    startCallbackServer s (.arrived ⟨cbCode, cbState, cbError⟩)
      = .error (.authorizationError cbError) := by
  rw [startCallbackServer]
  simp only [selectResult]
  rw [if_pos (by simpa using h)]

theorem startCallbackServer_state_mismatch (s cbCode cbState : String)
    (h : cbState ≠ s) :
    startCallbackServer s (.arrived ⟨cbCode, cbState, ""⟩) = .error .stateMismatch := by
  rw [startCallbackServer]
  simp only [selectResult]
  rw [if_neg (by simp), if_pos (by simpa using h)]

/-- Claim C1 counterexample: against an adversarial server that always
claims another page and always supplies a fresh non-empty cursor, the
fetch-all loop satisfies the guard at every step and never terminates — so
the guard alone does not give termination for *every* adversarial response
sequence. -/
theorem c1_counterexample : ¬ ListAllTerminates freshCursorServer := by
  intro h
  obtain ⟨fuel, hfuel⟩ := h
  rw [listAllIssues, freshCursorServer_no_stop fuel 0 "" [] (by decide)] at hfuel
  cases hfuel

/-- Claim C1 (amended): the pagination guard is enforced — whenever a page
claims another page with an empty or unchanged cursor, `nextPageCursor`
reports a `PaginationInvariantViolation` and the fetch-all loop stops at
once with that error; whenever the script contains a page that does not
continue (or continues with an empty cursor), the loop terminates within
that many requests; and on the two scripted scenarios from the spec the
loop returns the three items in server order, respectively stops with
`cursorNotAdvanced` on the stalled second page. -/
theorem c1_pagination_guard_and_termination :
    (∀ (current : String) (pi : PageInfo), pi.hasNextPage = true →
      (pi.endCursor = "" ∨ pi.endCursor = current) →
      ∃ e, nextPageCursor current pi = .error e) ∧
    (∀ (α : Type) (server : Nat → IssuesPage α) (k : Nat) (cursor : String)
        (acc : List α) (fuel : Nat) (e : PaginationInvariantViolation),
      nextPageCursor cursor (server k).pageInfo = .error e →
      listAllIssuesLoop server k cursor acc (fuel + 1) = some (.error e)) ∧
    (∀ (α : Type) (server : Nat → IssuesPage α) (n : Nat),
      (server n).pageInfo.hasNextPage = false ∨ (server n).pageInfo.endCursor = "" →
      ∀ fuel, n < fuel → (listAllIssues server fuel).isSome = true) ∧
    listAllIssues threePageServer 5 = some (.ok [10, 20, 30]) ∧
    listAllIssues stalledCursorServer 5 = some (.error .cursorNotAdvanced) := by
  refine ⟨?_, ?_, ?_, rfl, rfl⟩
  · intro current pi hnext hviol
    by_cases hemp : pi.endCursor = ""
    · exact ⟨.emptyEndCursor, by rw [nextPageCursor, if_neg (by simp [hnext]), if_pos hemp]⟩
    · refine ⟨.cursorNotAdvanced, ?_⟩
      rcases hviol with h | h
      · exact absurd h hemp
      · rw [nextPageCursor, if_neg (by simp [hnext]), if_neg hemp, if_pos h]
  · intro α server k cursor acc fuel e he
    simp [listAllIssuesLoop, he]
  · intro α server n hterm fuel hfuel
    exact listAllIssuesLoop_terminal server n hterm fuel 0 "" [] (by omega) (by omega)

/-- Witness for C1: the guard fires on a stalled cursor, the loop stops with
the violation, and a one-page script terminates in one request. -/
theorem c1_pagination_guard_and_termination_witness :
    ((PageInfo.mk true "c1").hasNextPage = true ∧
      ((PageInfo.mk true "c1").endCursor = "" ∨ (PageInfo.mk true "c1").endCursor = "c1") ∧
      ∃ e, nextPageCursor "c1" (PageInfo.mk true "c1") = .error e) ∧
    (nextPageCursor "c1" (stalledCursorServer 1).pageInfo = .error .cursorNotAdvanced ∧
      listAllIssuesLoop stalledCursorServer 1 "c1" [1] (3 + 1)
        = some (.error .cursorNotAdvanced)) ∧
    (((onePageServer 0).pageInfo.hasNextPage = false ∨
        (onePageServer 0).pageInfo.endCursor = "") ∧
      0 < 1 ∧ (listAllIssues onePageServer 1).isSome = true) :=
  ⟨⟨rfl, Or.inr rfl,
      c1_pagination_guard_and_termination.1 "c1" (PageInfo.mk true "c1") rfl (Or.inr rfl)⟩,
    ⟨rfl, c1_pagination_guard_and_termination.2.1 Nat (stalledCursorServer) 1 "c1" [1] 3
      .cursorNotAdvanced rfl⟩,
    ⟨Or.inl rfl, by decide,
      c1_pagination_guard_and_termination.2.2.1 Nat onePageServer 0 (Or.inl rfl) 1
        (by decide)⟩⟩

/-- Claim C2 (code bug): when no callback arrives before the 5-minute
deadline, the listener is closed and no credential is persisted and no
exchange is attempted — but the flow reports the state-mismatch/CSRF error,
not the intended timeout error: the timeout branch of the `select` sends
`{Error: "timeout waiting for authorization"}` into the buffered channel
instead of assigning it to `result`, so the zero-valued `result` then fails
the state comparison. -/
theorem c2_timeout_misreported (cid cs verifier : String)
    (te : List (String × String) → Except String TokenData) :
    startCallbackServer "S1" .timeout = .error .stateMismatch ∧
    listenerClosedAfterSelect .timeout = true ∧
    (authenticate cid cs "S1" verifier .timeout te).persisted = none ∧
    (authenticate cid cs "S1" verifier .timeout te).exchangedWith = none ∧
    (authenticate cid cs "S1" verifier .timeout te).result
        = .error (.callbackFailed .stateMismatch) ∧
    callbackErrorMessage .stateMismatch
        ≠ "authorization error: timeout waiting for authorization" := by
  have hscs : startCallbackServer "S1" .timeout = .error .stateMismatch := rfl
  refine ⟨hscs, rfl, ?_, ?_, ?_, by decide⟩ <;> simp [authenticate, hscs]

/-- Claim C3: an authorizer awaiting state `s1` rejects every callback whose
state differs from `s1`: the token exchange is never attempted, no
credential is persisted, the flow fails, and — whenever the callback is not
itself an error report — the failure is the state-mismatch/CSRF error. -/
theorem c3_csrf_state_mismatch (cid cs s1 verifier cbCode cbState cbError : String)
    (te : List (String × String) → Except String TokenData)
    (hne : cbState ≠ s1) :
    (authenticate cid cs s1 verifier (.arrived ⟨cbCode, cbState, cbError⟩) te).exchangedWith
        = none ∧
    (authenticate cid cs s1 verifier (.arrived ⟨cbCode, cbState, cbError⟩) te).persisted
        = none ∧
    (∃ e, (authenticate cid cs s1 verifier (.arrived ⟨cbCode, cbState, cbError⟩) te).result
        = .error e) ∧
    (cbError = "" →
      (authenticate cid cs s1 verifier (.arrived ⟨cbCode, cbState, cbError⟩) te).result
        = .error (.callbackFailed .stateMismatch)) := by
  by_cases herr : cbError = ""
  · subst herr
    have hscs := startCallbackServer_state_mismatch s1 cbCode cbState hne
    exact ⟨by simp [authenticate, hscs], by simp [authenticate, hscs],
      ⟨.callbackFailed .stateMismatch, by simp [authenticate, hscs]⟩,
      fun _ => by simp [authenticate, hscs]⟩
  · have hscs := startCallbackServer_auth_error s1 cbCode cbState cbError herr
    exact ⟨by simp [authenticate, hscs], by simp [authenticate, hscs],
      ⟨.callbackFailed (.authorizationError cbError), by simp [authenticate, hscs]⟩,
      fun h => absurd h herr⟩

/-- Token endpoint that always fails; used to instantiate witnesses. -/
def constEndpoint : List (String × String) → Except String TokenData :=
  fun _ => .error "unavailable"

/-- Witness for C3: a callback carrying state `"S2"` while the authorizer
awaits `"S1"` is rejected with the CSRF error and nothing is exchanged or
persisted. -/
theorem c3_csrf_state_mismatch_witness :
    ("S2" : String) ≠ "S1" ∧
    (authenticate "id" "secret" "S1" "v" (.arrived ⟨"code", "S2", ""⟩)
        constEndpoint).exchangedWith = none ∧
    (authenticate "id" "secret" "S1" "v" (.arrived ⟨"code", "S2", ""⟩)
        constEndpoint).persisted = none ∧
    (authenticate "id" "secret" "S1" "v" (.arrived ⟨"code", "S2", ""⟩)
        constEndpoint).result = .error (.callbackFailed .stateMismatch) :=
  have h := c3_csrf_state_mismatch "id" "secret" "S1" "v" "code" "S2" ""
    constEndpoint (by decide)
  ⟨by decide, h.1, h.2.1, h.2.2.2 rfl⟩

theorem exchangeTokenForm_lookup (cid cs code verifier : String) :
    (exchangeTokenForm cid cs code verifier).lookup "code_verifier" = some verifier := by
  simp [exchangeTokenForm, List.lookup]

/-- Claim C8: the PKCE challenge equals `base64url(sha256(verifier))`
(unpadded URL alphabet), the challenge travels only in the authorization
URL (`code_challenge`, method `S256`), and the token-exchange form always
carries the *original verifier* in `code_verifier` — it has no
`code_challenge` field at all, and every exchange the flow performs sends
the verifier it generated. -/
theorem c8_pkce_challenge_and_verifier (verifier code cid cs s : String) :
    generateCodeChallenge verifier = pkceSpecChallenge verifier ∧
    generateCodeChallenge verifier = b64UrlEncodeNoPad (sha256 (strBytes verifier)) ∧
    (exchangeTokenForm cid cs code verifier).lookup "code_verifier" = some verifier ∧
    (∀ kv ∈ exchangeTokenForm cid cs code verifier, kv.1 ≠ "code_challenge") ∧
    (buildAuthURLParams cid (String.mk (generateCodeChallenge verifier)) s).lookup
        "code_challenge" = some (String.mk (generateCodeChallenge verifier)) ∧
    (buildAuthURLParams cid (String.mk (generateCodeChallenge verifier)) s).lookup
        "code_challenge_method" = some "S256" ∧
    (∀ (oc : CallbackOutcome) (te : List (String × String) → Except String TokenData)
        (form : List (String × String)),
      (authenticate cid cs s verifier oc te).exchangedWith = some form →
      form.lookup "code_verifier" = some verifier) := by
  refine ⟨rfl, rfl, exchangeTokenForm_lookup cid cs code verifier, ?_, ?_, ?_, ?_⟩
  · intro kv hkv
    simp only [exchangeTokenForm, List.mem_cons, List.not_mem_nil, or_false] at hkv
    rcases hkv with rfl | rfl | rfl | rfl | rfl | rfl <;> simp
  · simp [buildAuthURLParams, List.lookup]
  · simp [buildAuthURLParams, List.lookup]
  · intro oc te form h
    rcases hscs : startCallbackServer s oc with e | rcode
    · simp [authenticate, hscs] at h
    · rcases hte : te (exchangeTokenForm cid cs rcode verifier) with msg | tok
      · simp only [authenticate, hscs, hte, Option.some.injEq] at h
        rw [← h]
        exact exchangeTokenForm_lookup cid cs rcode verifier
      · simp only [authenticate, hscs, hte, Option.some.injEq] at h
        rw [← h]
        exact exchangeTokenForm_lookup cid cs rcode verifier

/-- Witness for C8: a completed flow at concrete inputs sends the original
verifier to the token endpoint. -/
theorem c8_pkce_challenge_and_verifier_witness :
    (authenticate "id" "secret" "S1" "my-verifier" (.arrived ⟨"code", "S1", ""⟩)
        constEndpoint).exchangedWith = some (exchangeTokenForm "id" "secret" "code"
          "my-verifier") ∧
    (exchangeTokenForm "id" "secret" "code" "my-verifier").lookup "code_verifier"
        = some "my-verifier" :=
  ⟨rfl, (c8_pkce_challenge_and_verifier "my-verifier" "code" "id" "secret" "S1").2.2.2.2.2.2
    (.arrived ⟨"code", "S1", ""⟩) constEndpoint _ rfl⟩

/-- Claim C6: for every plaintext and every key produced by `deriveKey` in a
fixed machine context, decrypting `encrypt`'s output under the same key
returns exactly the plaintext.  The keyed AES block map is abstract
(`cipherOf`), constrained only to produce 16-byte blocks; `deriveKey`'s
32-byte output makes `aes.NewCipher` accept the key. -/
theorem c6_token_roundtrip (cipherOf : List Nat → List Nat → List Nat)
    (hostname home : String) (nonce pt : List Nat)
    (hE : ∀ b, (cipherOf (deriveKey hostname home) b).length = 16)
    (hEb : ∀ b x, x ∈ cipherOf (deriveKey hostname home) b → x < 256)
    (hn : nonce.length = 12) (hnb : ∀ x ∈ nonce, x < 256)
    (hp : ∀ x ∈ pt, x < 256) :
    ∃ blob, encrypt cipherOf pt (deriveKey hostname home) nonce = .ok blob ∧
      decrypt cipherOf blob (deriveKey hostname home) = .ok pt := by
  have h := decrypt_encrypt cipherOf (deriveKey hostname home) nonce pt
    (deriveKey_length hostname home) hE hEb hn hnb hp
  exact ⟨_, h.1, h.2⟩

/-- Block cipher standing in for the AES-256 permutation in witnesses. -/
def constBlockCipher : List Nat → List Nat → List Nat :=
  fun _ _ => List.replicate 16 0

/-- Witness for C6 at a concrete machine context, nonce and plaintext. -/
theorem c6_token_roundtrip_witness :
    (∀ b, (constBlockCipher (deriveKey "host" "/home/u") b).length = 16) ∧
    (∀ b x, x ∈ constBlockCipher (deriveKey "host" "/home/u") b → x < 256) ∧
    (List.replicate 12 (0 : Nat)).length = 12 ∧
    (∀ x ∈ List.replicate 12 (0 : Nat), x < 256) ∧
    (∀ x ∈ [1, 2, 3], x < 256) ∧
    ∃ blob, encrypt constBlockCipher [1, 2, 3] (deriveKey "host" "/home/u")
        (List.replicate 12 0) = .ok blob ∧
      decrypt constBlockCipher blob (deriveKey "host" "/home/u") = .ok [1, 2, 3] := by
  have h1 : ∀ b, (constBlockCipher (deriveKey "host" "/home/u") b).length = 16 := by
    intro b
    simp [constBlockCipher]
  have h2 : ∀ b x, x ∈ constBlockCipher (deriveKey "host" "/home/u") b → x < 256 := by
    intro b x hx
    rw [List.eq_of_mem_replicate hx]
    omega
  have h3 : (List.replicate 12 (0 : Nat)).length = 12 := by simp
  have h4 : ∀ x ∈ List.replicate 12 (0 : Nat), x < 256 := by
    intro x hx
    rw [List.eq_of_mem_replicate hx]
    omega
  have h5 : ∀ x ∈ [1, 2, 3], x < 256 := by decide
  exact ⟨h1, h2, h3, h4, h5,
    c6_token_roundtrip constBlockCipher "host" "/home/u" (List.replicate 12 0) [1, 2, 3]
      h1 h2 h3 h4 h5⟩

/-- Claim C9: `decrypt` fails closed.  A blob that is not valid base64
yields the invalid-base64 error; a decoded blob shorter than the 12-byte
nonce yields the too-short error; a failed `gcm.Open` yields the
authentication-failure error; a successful decryption necessarily went
through a verified tag and returns the full counter-mode unmasking — never
a partial or garbage plaintext; and `LoadToken` wraps every one of these
failures into the single generic "failed to decrypt" message. -/
theorem c9_decrypt_fails_closed (cipherOf : List Nat → List Nat → List Nat)
    (key : List Nat) (encoded : List Char) :
    (b64DecodeChunks encoded = none →
      decrypt cipherOf encoded key = .error .invalidBase64) ∧
    (∀ ct, b64DecodeChunks encoded = some ct → validAesKeySize key.length = true →
      ct.length < 12 → decrypt cipherOf encoded key = .error .tooShort) ∧
    (∀ ct, b64DecodeChunks encoded = some ct → validAesKeySize key.length = true →
      ¬ ct.length < 12 → gcmOpen (cipherOf key) (ct.take 12) (ct.drop 12) = none →
      decrypt cipherOf encoded key = .error .authFailed) ∧
    (∀ pt, decrypt cipherOf encoded key = .ok pt →
      ∃ ct, b64DecodeChunks encoded = some ct ∧ ¬ ct.length < 12 ∧
        gcmOpen (cipherOf key) (ct.take 12) (ct.drop 12) = some pt ∧
        16 ≤ (ct.drop 12).length ∧
        (ct.drop 12).drop ((ct.drop 12).length - 16)
          = gcmTag (cipherOf key) (ct.take 12)
              ((ct.drop 12).take ((ct.drop 12).length - 16)) ∧
        pt = gcmCtrXor (cipherOf key) (ct.take 12)
          ((ct.drop 12).take ((ct.drop 12).length - 16))) ∧
    (∀ e, ∃ detail, loadTokenDecryptMessage e = "failed to decrypt token: " ++ detail) := by
  refine ⟨?_, ?_, ?_, ?_, ?_⟩
  · intro h
    simp [decrypt, h]
  · intro ct hct hv hlen
    simp [decrypt, hct, hv, if_pos hlen]
  · intro ct hct hv hlen hopen
    simp [decrypt, hct, hv, if_neg hlen, hopen]
  · intro pt h
    rcases hct : b64DecodeChunks encoded with _ | ct
    · simp [decrypt, hct] at h
    · by_cases hv : validAesKeySize key.length = true
      · by_cases hlen : ct.length < 12
        · simp [decrypt, hct, hv, if_pos hlen] at h
        · rcases hopen : gcmOpen (cipherOf key) (ct.take 12) (ct.drop 12) with _ | pt'
          · simp [decrypt, hct, hv, if_neg hlen, hopen] at h
          · have hpt : pt' = pt := by
              simpa [decrypt, hct, hv, if_neg hlen, hopen] using h
            subst hpt
            obtain ⟨hge, htag, hrec⟩ := gcmOpen_eq_some _ _ _ _ hopen
            exact ⟨ct, rfl, hlen, hopen, hge, htag, hrec⟩
      · simp [decrypt, hct, hv] at h
  · intro e
    cases e <;> exact ⟨_, rfl⟩

/-- Witness for C9: a non-base64 blob and a decoded-too-short blob are both
rejected with the corresponding errors under a 32-byte key. -/
theorem c9_decrypt_fails_closed_witness :
    b64DecodeChunks ['!'] = none ∧
    decrypt constBlockCipher ['!'] (List.replicate 32 0) = .error .invalidBase64 ∧
    b64DecodeChunks [] = some [] ∧
    validAesKeySize (List.replicate 32 (0 : Nat)).length = true ∧
    ([] : List Nat).length < 12 ∧
    decrypt constBlockCipher [] (List.replicate 32 0) = .error .tooShort :=
  ⟨by decide,
    (c9_decrypt_fails_closed constBlockCipher (List.replicate 32 0) ['!']).1 (by decide),
    rfl, by decide, by decide,
    (c9_decrypt_fails_closed constBlockCipher (List.replicate 32 0) []).2.1 []
      rfl (by decide) (by decide)⟩
